import Mathlib

/-!
Shallow embedding of `ClearPath-Arduino-Pulse-Burst.ino`.

The sketch drives three output lines of a ClearPath motor controller
(Enable, Input A = direction, Input B = pulse) by bit-banging
`digitalWrite` calls and fixed `delay`s.  We model a run of a routine as
the finite list of externally visible effects it performs, in order:
pin-mode configuration, digital writes, blocking delays, and the one
`Serial.begin` call.  Pin levels HIGH/LOW are `true`/`false`.

The Arduino targeted by the sketch (classic AVR boards) has a 16-bit
two's-complement `int`; `abs` on `int` at `INT_MIN = -32768` wraps back
to `-32768`, which we model explicitly with `wrap16`.
-/

/-- Arduino pin number of the ClearPath Enable input (`const int Enable = 6`). -/
def Enable : Nat := 6

/-- Arduino pin number of the Enable negative wire (`const int Eneg = 7`). -/
def Eneg : Nat := 7

/-- Arduino pin number of ClearPath Input A, the direction line (`const int InputA = 8`). -/
def InputA : Nat := 8

/-- Arduino pin number of the Input A negative wire (`const int Aneg = 10`). -/
def Aneg : Nat := 10

/-- Arduino pin number of ClearPath Input B, the pulse line (`const int InputB = 9`). -/
def InputB : Nat := 9

/-- Arduino pin number of the Input B negative wire (`const int Bneg = 11`). -/
def Bneg : Nat := 11

/-- Arduino pin number of the ClearPath HLFB output (`const int HLFB = 4`). -/
def HLFB : Nat := 4

/-- Arduino pin number of the HLFB negative wire (`const int Hneg = 5`). -/
def Hneg : Nat := 5

/-- `int DwellTime = 1000;` — milliseconds to wait between commanded moves. -/
def DwellTime : Nat := 1000

/-- `int HomeTime = 10000;` — milliseconds to wait for homing to complete. -/
def HomeTime : Nat := 10000

/-- Pin direction passed to `pinMode` (the sketch uses `OUTPUT` and `INPUT_PULLUP`). -/
inductive PinMode where
  | OUTPUT : PinMode
  | INPUT_PULLUP : PinMode
deriving DecidableEq, Repr

/-- One externally visible effect of the sketch: a `pinMode` call, a
`digitalWrite` call (level HIGH = `true`, LOW = `false`), a `delay` call
(milliseconds), or the `Serial.begin` call. -/
inductive Event where
  | setMode : Nat → PinMode → Event
  | write : Nat → Bool → Event
  | delayMs : Nat → Event
  | serialBegin : Nat → Event
deriving DecidableEq, Repr

/-- The sketch's runtime-configurable globals that `MoveCommand` reads:
`int MinAltPulse = 10` and `bool ReverseDirection = 0`.  They are kept as
parameters so that theorems can quantify over them; `progConfig` below is
the configuration the sketch actually compiles with. -/
structure Config where
  MinAltPulse : Nat
  ReverseDirection : Bool
deriving DecidableEq, Repr

/-- The configuration the sketch declares: `MinAltPulse = 10`,
`ReverseDirection = 0` (false). -/
def progConfig : Config := ⟨10, false⟩

/-- Reduce an integer to the 16-bit two's-complement value it denotes on
the AVR target: the representative of `x` mod 2^16 in `[-32768, 32767]`. -/
def wrap16 (x : Int) : Int := (x + 32768) % 65536 - 32768

/-- C `abs` on a 16-bit `int`: negate a negative argument, with the
result wrapping back into 16 bits (so `absC (-32768) = -32768`). -/
def absC (x : Int) : Int := wrap16 (if x < 0 then -x else x)

/-- Number of iterations of the pulse loop
`for(int count=0;count<abs(distance);count++)`: the loop body runs
`abs(distance)` times when that is positive and not at all otherwise. -/
def pulseCount (distance : Int) : Nat := (absC distance).toNat

/-- The events of `n` iterations of the pulse loop body:
`digitalWrite(InputB, HIGH); digitalWrite(InputB, LOW);`. -/
def pulseTrain : Nat → List Event
  | 0 => []
  | Nat.succ n => Event.write InputB true :: Event.write InputB false :: pulseTrain n

/-- The condition of `if(distance<0 && !ReverseDirection || distance>0 && ReverseDirection)`:
the level written to Input A (HIGH = `true` when the condition holds). -/
def dirLevel (ReverseDirection : Bool) (distance : Int) : Bool :=
  (decide (distance < 0) && !ReverseDirection) || (decide (distance > 0) && ReverseDirection)

/-- `void MoveCommand(int distance, bool AltSpeed)` as its trace of effects.

* If `AltSpeed`: write Enable LOW, delay `MinAltPulse*1.5` ms, write
  Enable HIGH, delay `MinAltPulse*1.5` ms.  `MinAltPulse*1.5` is a
  `double` truncated by `delay`'s `unsigned long` parameter, i.e.
  `3 * MinAltPulse / 2` in truncating natural division.
* Write Input A HIGH or LOW according to the sign test on `distance`
  and `ReverseDirection`.
* Loop `abs(distance)` times writing Input B HIGH then LOW. -/
def MoveCommand (cfg : Config) (distance : Int) (AltSpeed : Bool) : List Event :=
  (if AltSpeed then
    [Event.write Enable false, Event.delayMs (3 * cfg.MinAltPulse / 2),
     Event.write Enable true, Event.delayMs (3 * cfg.MinAltPulse / 2)]
   else []) ++
  (Event.write InputA (dirLevel cfg.ReverseDirection distance) ::
   pulseTrain (pulseCount distance))

/-- The trace of `setup()`: pin-mode configuration, serial start, motor
disable, dwell, grounding of the negative wires, initial LOW levels on
Inputs A and B, enable, and the homing wait. -/
def setupEvents : List Event :=
  [Event.setMode Enable PinMode.OUTPUT,
   Event.setMode InputA PinMode.OUTPUT,
   Event.setMode InputB PinMode.OUTPUT,
   Event.setMode HLFB PinMode.INPUT_PULLUP,
   Event.setMode Eneg PinMode.OUTPUT,
   Event.setMode Aneg PinMode.OUTPUT,
   Event.setMode Bneg PinMode.OUTPUT,
   Event.setMode Hneg PinMode.OUTPUT,
   Event.serialBegin 9600,
   Event.write Enable false,
   Event.delayMs DwellTime,
   Event.write Eneg false,
   Event.write Aneg false,
   Event.write Bneg false,
   Event.write Hneg false,
   Event.write InputA false,
   Event.write InputB false,
   Event.write Enable true,
   Event.delayMs HomeTime,
   Event.delayMs DwellTime]

/-- One statement of the body of `loop()`: a `MoveCommand(distance, altSpeed)`
call or a `delay(DwellTime)` dwell. -/
inductive Stmt where
  | move : Int → Bool → Stmt
  | dwell : Stmt
deriving DecidableEq, Repr

/-- The body of `loop()`, statement for statement (a `MoveCommand` call
with one argument passes the default `AltSpeed = 0`). -/
def loopBody : List Stmt :=
  [Stmt.move 1000 false, Stmt.dwell,
   Stmt.move (-2000) true, Stmt.dwell,
   Stmt.move 3000 false, Stmt.dwell,
   Stmt.move (-4000) false, Stmt.dwell,
   Stmt.move 5000 true, Stmt.dwell,
   Stmt.move (-6000) false, Stmt.dwell,
   Stmt.move 7000 false, Stmt.dwell,
   Stmt.move (-8000) true, Stmt.dwell,
   Stmt.move 9000 false, Stmt.dwell,
   Stmt.move (-10000) false, Stmt.dwell,
   Stmt.move 9000 true, Stmt.move (-8000) false, Stmt.dwell,
   Stmt.move 7000 false, Stmt.move (-6000) true, Stmt.dwell,
   Stmt.move 5000 false, Stmt.move (-4000) false, Stmt.dwell,
   Stmt.move 3000 true, Stmt.move (-2000) false, Stmt.dwell,
   Stmt.move 1000 false, Stmt.dwell]

/-- The events performed by one `loop()` statement. -/
def execStmt (cfg : Config) : Stmt → List Event
  | Stmt.move d a => MoveCommand cfg d a
  | Stmt.dwell => [Event.delayMs DwellTime]

/-- The trace of one iteration of `loop()`. -/
def loopEvents (cfg : Config) : List Event :=
  (loopBody.map (execStmt cfg)).flatten

/-- The move table from the design comment of the sketch (lines 36-51):
distances +10, -20 (alt spd), +30, -40, +50 (alt spd), -60, +70,
-80 (alt spd), +90, -100, then the chained pairs
+90 (alt spd) --> -80, +70 --> -60 (alt spd), +50 --> -40,
+30 (alt spd) --> -20, and finally +10; an arrow marks one pulse stream
immediately following the previous, all other moves are separated by a
dwell. -/
def tableBody : List Stmt :=
  [Stmt.move 10 false, Stmt.dwell,
   Stmt.move (-20) true, Stmt.dwell,
   Stmt.move 30 false, Stmt.dwell,
   Stmt.move (-40) false, Stmt.dwell,
   Stmt.move 50 true, Stmt.dwell,
   Stmt.move (-60) false, Stmt.dwell,
   Stmt.move 70 false, Stmt.dwell,
   Stmt.move (-80) true, Stmt.dwell,
   Stmt.move 90 false, Stmt.dwell,
   Stmt.move (-100) false, Stmt.dwell,
   Stmt.move 90 true, Stmt.move (-80) false, Stmt.dwell,
   Stmt.move 70 false, Stmt.move (-60) true, Stmt.dwell,
   Stmt.move 50 false, Stmt.move (-40) false, Stmt.dwell,
   Stmt.move 30 true, Stmt.move (-20) false, Stmt.dwell,
   Stmt.move 10 false, Stmt.dwell]

/-- Scale the distance of a move statement by `k` (dwells unchanged). -/
def scaleStmt (k : Int) : Stmt → Stmt
  | Stmt.move d a => Stmt.move (k * d) a
  | Stmt.dwell => Stmt.dwell

/-- Pin-level state: the level last written to each pin. -/
def PinState : Type := Nat → Bool

/-- Effect of one event on the pin levels: a `digitalWrite` updates the
written pin, everything else leaves the levels unchanged. -/
def applyEvent (s : PinState) : Event → PinState
  | Event.write p l => fun q => if q = p then l else s q
  | _ => s

/-- Effect of a trace of events on the pin levels, in order. -/
def applyEvents (s : PinState) : List Event → PinState
  | [] => s
  | e :: es => applyEvents (applyEvent s e) es

/-- Does this event write pin `p` (at either level)? -/
def isWriteTo (p : Nat) : Event → Bool
  | Event.write q _ => q == p
  | _ => false

/-- Does this event write pin `p` HIGH? -/
def isHighWriteTo (p : Nat) : Event → Bool
  | Event.write q l => q == p && l
  | _ => false

/-- Does this event write pin `p` LOW? -/
def isLowWriteTo (p : Nat) : Event → Bool
  | Event.write q l => q == p && !l
  | _ => false

/-- Number of pulses in a trace: HIGH writes to the pulse line Input B. -/
def countPulses (es : List Event) : Nat := es.countP (fun e => isHighWriteTo InputB e)

/-- The writes to the direction line Input A occurring in a trace. -/
def inputAWrites (es : List Event) : List Event := es.filter (fun e => isWriteTo InputA e)

/-- Every HIGH write to Input B in the trace is immediately followed by a
LOW write to Input B (the two forming one pulse). -/
def pulsesPaired : List Event → Bool
  | [] => true
  | [e] => !(isHighWriteTo InputB e)
  | e1 :: e2 :: rest =>
      if isHighWriteTo InputB e1 then
        isLowWriteTo InputB e2 && pulsesPaired rest
      else
        pulsesPaired (e2 :: rest)

/-- Is this event a `digitalWrite` or a `delay` (the only effects
`MoveCommand` performs)? -/
def isWriteOrDelay : Event → Bool
  | Event.write _ _ => true
  | Event.delayMs _ => true
  | _ => false

/-! ## Basic trace lemmas -/

theorem applyEvents_append (s : PinState) (es1 es2 : List Event) :
    applyEvents s (es1 ++ es2) = applyEvents (applyEvents s es1) es2 := by
  induction es1 generalizing s with
  | nil => rfl
  | cons e es ih => simp only [List.cons_append, applyEvents]; exact ih _

theorem applyEvents_no_write (q : Nat) (es : List Event) (s : PinState)
    (h : ∀ e ∈ es, isWriteTo q e = false) : applyEvents s es q = s q := by
  induction es generalizing s with
  | nil => rfl
  | cons e es ih =>
    have he := h e (List.mem_cons_self e es)
    have hrest : ∀ x ∈ es, isWriteTo q x = false := fun x hx => h x (List.mem_cons_of_mem _ hx)
    show applyEvents (applyEvent s e) es q = s q
    rw [ih _ hrest]
    cases e with
    | write p l =>
      have hqp : ¬ q = p := by
        simp only [isWriteTo, beq_eq_false_iff_ne, ne_eq] at he
        exact fun hq => he hq.symm
      simp [applyEvent, hqp]
    | setMode p m => rfl
    | delayMs n => rfl
    | serialBegin n => rfl

theorem pulseTrain_mem {e : Event} : ∀ {n : Nat}, e ∈ pulseTrain n →
    e = Event.write InputB true ∨ e = Event.write InputB false := by
  intro n
  induction n with
  | zero => intro h; cases h
  | succ n ih =>
    intro h
    simp only [pulseTrain, List.mem_cons] at h
    rcases h with h | h | h
    · exact Or.inl h
    · exact Or.inr h
    · exact ih h

/-! ## Pulse-train lemmas -/

theorem countPulses_pulseTrain (n : Nat) : countPulses (pulseTrain n) = n := by
  induction n with
  | zero => rfl
  | succ n ih =>
    simp only [countPulses] at ih ⊢
    simp only [pulseTrain, List.countP_cons, ih]
    rfl

theorem pulseTrain_no_inputA {n : Nat} : ∀ e ∈ pulseTrain n, isWriteTo InputA e = false := by
  intro e he
  rcases pulseTrain_mem he with h | h <;> subst h <;> rfl

theorem pulseTrain_write_or_delay {n : Nat} : ∀ e ∈ pulseTrain n, isWriteOrDelay e = true := by
  intro e he
  rcases pulseTrain_mem he with h | h <;> subst h <;> rfl

theorem inputAWrites_pulseTrain (n : Nat) : inputAWrites (pulseTrain n) = [] := by
  simp only [inputAWrites, List.filter_eq_nil_iff]
  intro e he
  simp [pulseTrain_no_inputA e he]

theorem length_pulseTrain (n : Nat) : (pulseTrain n).length = 2 * n := by
  induction n with
  | zero => rfl
  | succ n ih => simp only [pulseTrain, List.length_cons, ih]; omega

theorem pulsesPaired_cons (e : Event) (es : List Event)
    (h : isHighWriteTo InputB e = false) : pulsesPaired (e :: es) = pulsesPaired es := by
  cases es with
  | nil => simp [pulsesPaired, h]
  | cons e2 rest => simp [pulsesPaired, h]

theorem pulsesPaired_pulseTrain (n : Nat) : pulsesPaired (pulseTrain n) = true := by
  induction n with
  | zero => rfl
  | succ n ih => simpa [pulseTrain, pulsesPaired, isHighWriteTo, isLowWriteTo, InputB] using ih

theorem pulseTrain_low (n : Nat) (s : PinState) (h : s InputB = false) :
    applyEvents s (pulseTrain n) InputB = false := by
  induction n generalizing s with
  | zero => exact h
  | succ n ih =>
    show applyEvents (applyEvent (applyEvent s (Event.write InputB true))
      (Event.write InputB false)) (pulseTrain n) InputB = false
    exact ih _ rfl

/-! ## MoveCommand structural lemmas -/

theorem inputAWrites_MoveCommand (cfg : Config) (d : Int) (a : Bool) :
    inputAWrites (MoveCommand cfg d a) =
      [Event.write InputA (dirLevel cfg.ReverseDirection d)] := by
  have hpt := inputAWrites_pulseTrain (pulseCount d)
  simp only [inputAWrites] at hpt
  cases a <;>
    simp [MoveCommand, inputAWrites, List.filter_append, List.filter_cons, hpt,
      isWriteTo, Enable, InputA] <;>
    exact fun e he => pulseTrain_no_inputA e he

theorem countPulses_MoveCommand (cfg : Config) (d : Int) (a : Bool) :
    countPulses (MoveCommand cfg d a) = pulseCount d := by
  have hpt := countPulses_pulseTrain (pulseCount d)
  simp only [countPulses] at hpt
  cases a <;>
    simp [MoveCommand, countPulses, List.countP_append, List.countP_cons, hpt,
      isHighWriteTo, Enable, InputA, InputB] <;>
    exact hpt

theorem pulsesPaired_MoveCommand (cfg : Config) (d : Int) (a : Bool) :
    pulsesPaired (MoveCommand cfg d a) = true := by
  have hdir : isHighWriteTo InputB
      (Event.write InputA (dirLevel cfg.ReverseDirection d)) = false := rfl
  have hlo : isHighWriteTo InputB (Event.write Enable false) = false := rfl
  have hhi : isHighWriteTo InputB (Event.write Enable true) = false := rfl
  have hdel : isHighWriteTo InputB (Event.delayMs (3 * cfg.MinAltPulse / 2)) = false := rfl
  cases a with
  | false =>
    show pulsesPaired (Event.write InputA (dirLevel cfg.ReverseDirection d) ::
      pulseTrain (pulseCount d)) = true
    rw [pulsesPaired_cons _ _ hdir, pulsesPaired_pulseTrain]
  | true =>
    show pulsesPaired (Event.write Enable false :: Event.delayMs (3 * cfg.MinAltPulse / 2) ::
      Event.write Enable true :: Event.delayMs (3 * cfg.MinAltPulse / 2) ::
      Event.write InputA (dirLevel cfg.ReverseDirection d) ::
      pulseTrain (pulseCount d)) = true
    rw [pulsesPaired_cons _ _ hlo, pulsesPaired_cons _ _ hdel, pulsesPaired_cons _ _ hhi,
      pulsesPaired_cons _ _ hdel, pulsesPaired_cons _ _ hdir, pulsesPaired_pulseTrain]

theorem moveCommand_false_no_enable (cfg : Config) (d : Int) :
    ∀ e ∈ MoveCommand cfg d false, isWriteTo Enable e = false := by
  intro e he
  have he2 : e ∈ Event.write InputA (dirLevel cfg.ReverseDirection d) ::
      pulseTrain (pulseCount d) := he
  simp only [List.mem_cons] at he2
  rcases he2 with h | h
  · subst h; rfl
  · rcases pulseTrain_mem h with h2 | h2 <;> subst h2 <;> rfl

theorem moveCommand_write_or_delay (cfg : Config) (d : Int) (a : Bool) :
    ∀ e ∈ MoveCommand cfg d a, isWriteOrDelay e = true := by
  intro e he
  cases a with
  | false =>
    have he2 : e ∈ Event.write InputA (dirLevel cfg.ReverseDirection d) ::
        pulseTrain (pulseCount d) := he
    simp only [List.mem_cons] at he2
    rcases he2 with h | h
    · subst h; rfl
    · exact pulseTrain_write_or_delay e h
  | true =>
    have he2 : e ∈ Event.write Enable false :: Event.delayMs (3 * cfg.MinAltPulse / 2) ::
        Event.write Enable true :: Event.delayMs (3 * cfg.MinAltPulse / 2) ::
        Event.write InputA (dirLevel cfg.ReverseDirection d) ::
        pulseTrain (pulseCount d) := he
    simp only [List.mem_cons] at he2
    rcases he2 with h | h | h | h | h | h
    · subst h; rfl
    · subst h; rfl
    · subst h; rfl
    · subst h; rfl
    · subst h; rfl
    · exact pulseTrain_write_or_delay e h

theorem length_MoveCommand (cfg : Config) (d : Int) (a : Bool) :
    (MoveCommand cfg d a).length = (if a then 4 else 0) + 1 + 2 * pulseCount d := by
  cases a <;> simp [MoveCommand, length_pulseTrain] <;> omega

theorem moveCommand_low (cfg : Config) (d : Int) (a : Bool) (s : PinState)
    (h : s InputB = false) : applyEvents s (MoveCommand cfg d a) InputB = false := by
  cases a with
  | false =>
    show applyEvents (applyEvent s
      (Event.write InputA (dirLevel cfg.ReverseDirection d))) (pulseTrain (pulseCount d))
      InputB = false
    exact pulseTrain_low _ _ h
  | true =>
    show applyEvents (applyEvent (applyEvent (applyEvent (applyEvent (applyEvent s
      (Event.write Enable false)) (Event.delayMs (3 * cfg.MinAltPulse / 2)))
      (Event.write Enable true)) (Event.delayMs (3 * cfg.MinAltPulse / 2)))
      (Event.write InputA (dirLevel cfg.ReverseDirection d)))
      (pulseTrain (pulseCount d)) InputB = false
    exact pulseTrain_low _ _ h

/-! ## Arithmetic and direction lemmas -/

theorem pulseCount_eq_natAbs {d : Int} (h1 : -32768 ≤ d) (h2 : d ≤ 32767)
    (h3 : d ≠ -32768) : pulseCount d = d.natAbs := by
  unfold pulseCount absC wrap16
  split <;> omega

theorem dirLevel_zero (r : Bool) : dirLevel r 0 = false := by
  cases r <;> rfl

theorem dirLevel_true_iff (r : Bool) (d : Int) :
    dirLevel r d = true ↔ (d < 0 ∧ r = false) ∨ (d > 0 ∧ r = true) := by
  cases r <;> simp [dirLevel]

theorem dirLevel_flip {d : Int} (r : Bool) (h : d ≠ 0) :
    dirLevel (!r) d = !(dirLevel r d) := by
  rcases lt_trichotomy d 0 with hd | hd | hd
  · cases r <;> simp [dirLevel, hd, asymm hd]
  · exact absurd hd h
  · cases r <;> simp [dirLevel, hd, asymm hd]

/-! ## State lemmas for setup and loop -/

theorem setup_inputB_low (s : PinState) : applyEvents s setupEvents InputB = false := rfl

theorem stmts_preserve_low (sts : List Stmt) (cfg : Config) (s : PinState)
    (h : s InputB = false) :
    applyEvents s ((sts.map (execStmt cfg)).flatten) InputB = false := by
  induction sts generalizing s with
  | nil => exact h
  | cons st sts ih =>
    rw [List.map_cons, List.flatten_cons, applyEvents_append]
    apply ih
    cases st with
    | move d a => exact moveCommand_low cfg d a s h
    | dwell => exact h

theorem loopEvents_preserve_low (cfg : Config) (s : PinState) (h : s InputB = false) :
    applyEvents s (loopEvents cfg) InputB = false :=
  stmts_preserve_low loopBody cfg s h

/-! ## Lemmas for direction stability during the pulse train -/

theorem applyEvents_pulseTrain_take (n i : Nat) (s : PinState) :
    applyEvents s ((pulseTrain n).take i) InputA = s InputA :=
  applyEvents_no_write InputA _ s
    (fun e he => pulseTrain_no_inputA e (List.take_subset i _ he))

/-! ## Claim theorems -/

/-- Claim C1, counterexample to the universal statement: at the 16-bit
INT_MIN distance -32768 the code emits zero pulses, not
abs(-32768) = 32768 of them. -/
theorem moveCommand_intmin_pulse_mismatch :
    countPulses (MoveCommand progConfig (-32768) false) ≠ Int.natAbs (-32768) := by
  decide

/-- Claim C1 (amended): for every int-range distance other than INT_MIN,
MoveCommand emits exactly abs(distance) pulses on Input B, and every HIGH
write to Input B in its trace is immediately followed by a LOW write; in
particular distance 0 yields zero pulses. -/
theorem moveCommand_pulse_emission (cfg : Config) (d : Int) (a : Bool)
    (h1 : -32768 ≤ d) (h2 : d ≤ 32767) (h3 : d ≠ -32768) :
    countPulses (MoveCommand cfg d a) = d.natAbs ∧
    pulsesPaired (MoveCommand cfg d a) = true :=
  ⟨(countPulses_MoveCommand cfg d a).trans (pulseCount_eq_natAbs h1 h2 h3),
   pulsesPaired_MoveCommand cfg d a⟩

/-- Claim C1, witness: the amended theorem applied at distance 3 with
alternate speed requested. -/
theorem moveCommand_pulse_emission_witness :
    ((-32768 : Int) ≤ 3 ∧ (3 : Int) ≤ 32767 ∧ (3 : Int) ≠ -32768) ∧
    countPulses (MoveCommand progConfig 3 true) = Int.natAbs 3 ∧
    pulsesPaired (MoveCommand progConfig 3 true) = true :=
  ⟨by decide, moveCommand_pulse_emission progConfig 3 true (by decide) (by decide) (by decide)⟩

/-- Claim C2: every MoveCommand call performs exactly one write to the
direction line Input A, whose level is HIGH precisely when
(distance < 0 and not ReverseDirection) or (distance > 0 and
ReverseDirection); distance 0 always yields LOW. -/
theorem moveCommand_direction_selection (cfg : Config) (d : Int) (a : Bool) :
    inputAWrites (MoveCommand cfg d a) =
      [Event.write InputA (dirLevel cfg.ReverseDirection d)] ∧
    (dirLevel cfg.ReverseDirection d = true ↔
      (d < 0 ∧ cfg.ReverseDirection = false) ∨ (d > 0 ∧ cfg.ReverseDirection = true)) ∧
    dirLevel cfg.ReverseDirection 0 = false :=
  ⟨inputAWrites_MoveCommand cfg d a, dirLevel_true_iff _ d, dirLevel_zero _⟩

/-- Claim C3: with altSpeed true the trace is exactly the enable blip —
Enable LOW, delay MinAltPulse*1.5 (truncated), Enable HIGH, the same
delay — followed by the whole altSpeed-false trace (direction write, then
pulses); with MinAltPulse = 10 each level is held 15 ms, and the
altSpeed-false trace starts with the direction write. -/
theorem moveCommand_altSpeed_blip (cfg : Config) (d : Int) :
    MoveCommand cfg d true =
      Event.write Enable false :: Event.delayMs (3 * cfg.MinAltPulse / 2) ::
      Event.write Enable true :: Event.delayMs (3 * cfg.MinAltPulse / 2) ::
      MoveCommand cfg d false ∧
    3 * progConfig.MinAltPulse / 2 = 15 ∧
    MoveCommand cfg d false =
      Event.write InputA (dirLevel cfg.ReverseDirection d) :: pulseTrain (pulseCount d) :=
  ⟨rfl, rfl, rfl⟩

/-- Claim C4: for nonzero distance, negating ReverseDirection inverts the
level MoveCommand writes to the direction line. -/
theorem reverseDirection_inverts_direction (m : Nat) (r : Bool) (d : Int) (a : Bool)
    (h : d ≠ 0) :
    dirLevel (!r) d = !(dirLevel r d) ∧
    inputAWrites (MoveCommand ⟨m, !r⟩ d a) = [Event.write InputA (!(dirLevel r d))] := by
  refine ⟨dirLevel_flip r h, ?_⟩
  rw [inputAWrites_MoveCommand]
  rw [show (Config.mk m (!r)).ReverseDirection = !r from rfl, dirLevel_flip r h]

/-- Claim C4, witness: the theorem applied at distance 5 with the
configuration flag flipped from false to true. -/
theorem reverseDirection_inverts_direction_witness :
    ((5 : Int) ≠ 0) ∧ dirLevel (!false) 5 = !(dirLevel false 5) ∧
    inputAWrites (MoveCommand ⟨10, !false⟩ 5 false) =
      [Event.write InputA (!(dirLevel false 5))] :=
  ⟨by decide, reverseDirection_inverts_direction 10 false 5 false (by decide)⟩

/-- Claim C5, counterexample: the loop body is not the design comment's
move table as literally given (the first call moves 1000, the table
says 10). -/
theorem loopBody_ne_tableBody : loopBody ≠ tableBody := by decide

/-- Claim C5 (amended): the loop body issues exactly the move table's
sequence with every distance multiplied by 100 — same signs, same
alt-speed flags, dwell delays between moves except at the documented
back-to-back pairs. -/
theorem loopBody_is_scaled_table :
    loopBody = tableBody.map (scaleStmt 100) ∧
    ∀ cfg : Config,
      loopEvents cfg = ((tableBody.map (scaleStmt 100)).map (execStmt cfg)).flatten := by
  have h : loopBody = tableBody.map (scaleStmt 100) := by decide
  exact ⟨h, fun cfg => by rw [loopEvents, h]⟩

/-- Claim C6: with altSpeed false, MoveCommand performs no write to the
Enable line and leaves its level unchanged for every distance. -/
theorem moveCommand_enable_untouched (cfg : Config) (d : Int) (s : PinState) :
    (MoveCommand cfg d false).countP (fun e => isWriteTo Enable e) = 0 ∧
    applyEvents s (MoveCommand cfg d false) Enable = s Enable := by
  constructor
  · rw [List.countP_eq_zero]
    intro e he
    simp [moveCommand_false_no_enable cfg d e he]
  · exact applyEvents_no_write Enable _ s (moveCommand_false_no_enable cfg d)

/-- Claim C7: the direction line is written exactly once per call, the
trace from that write onward is the write followed by the pulse train,
and at every point during the pulse train the direction line still holds
the asserted level. -/
theorem moveCommand_direction_stable (cfg : Config) (d : Int) (a : Bool) :
    inputAWrites (MoveCommand cfg d a) =
      [Event.write InputA (dirLevel cfg.ReverseDirection d)] ∧
    (MoveCommand cfg d a).dropWhile (fun e => !(isWriteTo InputA e)) =
      Event.write InputA (dirLevel cfg.ReverseDirection d) :: pulseTrain (pulseCount d) ∧
    ∀ (s : PinState) (i : Nat),
      applyEvents s ((Event.write InputA (dirLevel cfg.ReverseDirection d) ::
        pulseTrain (pulseCount d)).take (i + 1)) InputA = dirLevel cfg.ReverseDirection d := by
  refine ⟨inputAWrites_MoveCommand cfg d a, ?_, ?_⟩
  · cases a <;> rfl
  · intro s i
    rw [List.take_succ_cons]
    show applyEvents (applyEvent s (Event.write InputA (dirLevel cfg.ReverseDirection d)))
      ((pulseTrain (pulseCount d)).take i) InputA = dirLevel cfg.ReverseDirection d
    rw [applyEvents_pulseTrain_take]
    rfl

/-- Claim C8: MoveCommand is total — its trace is a finite list whose
length is fixed by the inputs (the optional four blip events, one
direction write, and two events per pulse), and every event in it is an
output write or a fixed delay; no other effect and no error path exists. -/
theorem moveCommand_total_bounded (cfg : Config) (d : Int) (a : Bool) :
    (MoveCommand cfg d a).length = (if a then 4 else 0) + 1 + 2 * pulseCount d ∧
    (∀ e ∈ MoveCommand cfg d a, isWriteOrDelay e = true) :=
  ⟨length_MoveCommand cfg d a, moveCommand_write_or_delay cfg d a⟩

/-- Claim C9: at the 16-bit INT_MIN distance -32768 (a nonzero input),
C abs wraps to a negative value, the pulse loop runs zero times, zero
pulses are emitted, and the direction line is still written per the sign
test. -/
theorem moveCommand_intmin_wraps (cfg : Config) (a : Bool) :
    ((-32768 : Int) ≠ 0) ∧ absC (-32768) < 0 ∧ pulseCount (-32768) = 0 ∧
    countPulses (MoveCommand cfg (-32768) a) = 0 ∧
    inputAWrites (MoveCommand cfg (-32768) a) =
      [Event.write InputA (dirLevel cfg.ReverseDirection (-32768))] := by
  refine ⟨by decide, by decide, by decide, ?_, inputAWrites_MoveCommand cfg (-32768) a⟩
  rw [countPulses_MoveCommand]
  decide

/-- Claim C10: setup leaves the pulse line Input B LOW from any starting
state, and both MoveCommand (for every input) and a whole loop iteration
preserve a LOW pulse line, so between any two MoveCommand invocations the
pulse line is LOW. -/
theorem pulse_line_low_invariant :
    (∀ s : PinState, applyEvents s setupEvents InputB = false) ∧
    (∀ (cfg : Config) (d : Int) (a : Bool) (s : PinState), s InputB = false →
      applyEvents s (MoveCommand cfg d a) InputB = false) ∧
    (∀ (cfg : Config) (s : PinState), s InputB = false →
      applyEvents s (loopEvents cfg) InputB = false) :=
  ⟨setup_inputB_low, moveCommand_low, loopEvents_preserve_low⟩

/-- Claim C10, witness: the invariant applied to the all-LOW state, a
concrete move of distance 2 with the enable blip, and one loop iteration. -/
theorem pulse_line_low_invariant_witness :
    ((fun _ => false : PinState) InputB = false) ∧
    applyEvents (fun _ => false) (MoveCommand progConfig 2 true) InputB = false ∧
    applyEvents (fun _ => false) (loopEvents progConfig) InputB = false :=
  ⟨rfl, pulse_line_low_invariant.2.1 progConfig 2 true (fun _ => false) rfl,
   pulse_line_low_invariant.2.2 progConfig (fun _ => false) rfl⟩
